import Mathlib

/-!
Shallow embedding of the p2p connection server (`p2p/server.go`) of the
go-zenon repository: connection flags, admission checks, the run-loop
events that own the peer map, the setup driver, and the `Start`/`Stop`
lifecycle of the server facade. Definitions are translated from the Go
source; theorems settle the specification claims about them.
-/

namespace P2P

/-! ### Connection flags (`connFlag`, a bitset: `1 << iota`) -/

def dynDialedConn : Nat := 1
def staticDialedConn : Nat := 2
def inboundConn : Nat := 4
def trustedConn : Nat := 8

/-- Disconnect reasons and errors observable from the server code.
`transportError code` stands for an opaque I/O or crypto error produced by
the transport during a handshake (the server only forwards such errors and
never fabricates one itself). -/
inductive PeerError where
  | DiscTooManyPeers
  | DiscAlreadyConnected
  | DiscSelf
  | DiscUselessPeer
  | DiscUnexpectedIdentity
  | DiscReadTimeout
  | DiscQuitting
  | errServerStopped
  | transportError (code : Nat)
  deriving DecidableEq, Repr

/-- A capability advertised in the protocol handshake: a (name, version) pair. -/
structure Cap where
  name : String
  version : Nat
  deriving DecidableEq, Repr

/-- A sub-protocol configured on the server (only its name and version matter
for the admission logic). -/
structure Protocol where
  name : String
  version : Nat
  deriving DecidableEq, Repr

/-- `Protocol.cap()` from the source: the capability a protocol advertises. -/
def Protocol.cap (p : Protocol) : Cap := ⟨p.name, p.version⟩

/-- The `conn` struct: a network connection with the information gathered
during the two handshakes (`flags`, learned `id`, learned `caps`). -/
structure Conn where
  flags : Nat
  id : Nat
  caps : List Cap
  deriving DecidableEq, Repr

/-- `func (c *conn) is(f connFlag) bool { return c.flags&f != 0 }` -/
def Conn.is (c : Conn) (f : Nat) : Bool := c.flags &&& f != 0

/-- A peer as stored in the run loop's peer map; `newPeer(c, protocols)`
records the connection, so the peer carries the connection's flags, id and
capabilities. -/
structure Peer where
  flags : Nat
  id : Nat
  caps : List Cap
  deriving DecidableEq, Repr

/-- `newPeer(c, srv.Protocols)`: the peer created from an admitted connection. -/
def newPeer (c : Conn) : Peer := ⟨c.flags, c.id, c.caps⟩

/-! ### The peer map (`peers map[discover.NodeID]*Peer`), as an association list -/

abbrev PeerMap := List (Nat × Peer)

/-- `peers[k]` (Go map read; `none` plays the role of `nil`). -/
def PeerMap.lookup : PeerMap → Nat → Option Peer
  | [], _ => none
  | (k, v) :: rest, j => if k = j then some v else PeerMap.lookup rest j

/-- `peers[k] = v` (Go map write: replaces an existing binding, otherwise
adds a new one). -/
def PeerMap.insert : PeerMap → Nat → Peer → PeerMap
  | [], k, v => [(k, v)]
  | (k', v') :: rest, k, v =>
      if k' = k then (k, v) :: rest else (k', v') :: PeerMap.insert rest k v

/-- `delete(peers, k)` (Go map delete). -/
def PeerMap.erase (m : PeerMap) (k : Nat) : PeerMap :=
  m.filter (fun kv => kv.1 ≠ k)

/-! ### Server configuration visible to the run loop -/

/-- The configuration of the server consumed by the admission logic:
`MaxPeers` (a Go `int`), the server's own node ID (`Self().ID`), the
configured protocols, and the set of trusted node IDs (built once from
`TrustedNodes` when the run loop starts). -/
structure ServerCfg where
  maxPeers : Int
  selfId : Nat
  protocols : List Protocol
  trustedNodes : List Nat
  deriving DecidableEq, Repr

/-- `Server.encHandshakeChecks`: the switch evaluated in source order. -/
def encHandshakeChecks (srv : ServerCfg) (peers : PeerMap) (c : Conn) : Option PeerError :=
  if ¬ c.is (trustedConn ||| staticDialedConn) ∧ srv.maxPeers ≤ (peers.length : Int) then
    some .DiscTooManyPeers
  else if (PeerMap.lookup peers c.id).isSome then
    some .DiscAlreadyConnected
  else if c.id = srv.selfId then
    some .DiscSelf
  else
    none

/-- Modelled from the spec: `countMatchingProtocols` is declared outside the
provided source files; per the spec it counts the (name, version) capability
pairs shared between our configured protocols and the remote's advertised
capabilities. -/
def countMatchingProtocols (protocols : List Protocol) (caps : List Cap) : Nat :=
  (protocols.filter (fun p => caps.contains p.cap)).length

/-- `Server.protoHandshakeChecks`: drop connections with no matching
protocols, then repeat the encryption handshake checks. -/
def protoHandshakeChecks (srv : ServerCfg) (peers : PeerMap) (c : Conn) : Option PeerError :=
  if 0 < srv.protocols.length ∧ countMatchingProtocols srv.protocols c.caps = 0 then
    some .DiscUselessPeer
  else
    encHandshakeChecks srv peers c

/-! ### The run loop (`Server.run`): events over the peer map -/

/-- The flag adjustment performed by the `posthandshake` case of the run
loop before any check: if the learned ID is trusted, OR the trusted flag
into the connection's flags. -/
def posthandshakeTrust (srv : ServerCfg) (c : Conn) : Conn :=
  if srv.trustedNodes.contains c.id then { c with flags := c.flags ||| trustedConn } else c

/-- The verdict sent on `c.cont` by the `posthandshake` case: the trusted
flag is set first, then `encHandshakeChecks` runs on the current peer map. -/
def posthandshakeEvent (srv : ServerCfg) (peers : PeerMap) (c : Conn) : Option PeerError :=
  encHandshakeChecks srv peers (posthandshakeTrust srv c)

/-- The `addpeer` case of the run loop: run `protoHandshakeChecks`; on
success create the peer and insert it into the map. Returns the updated
map and the verdict sent on `c.cont`. -/
def addpeerEvent (srv : ServerCfg) (peers : PeerMap) (c : Conn) : PeerMap × Option PeerError :=
  match protoHandshakeChecks srv peers c with
  | some err => (peers, some err)
  | none => (PeerMap.insert peers c.id (newPeer c), none)

/-- The individual steps the `addpeer` case performs, in program order. -/
inductive RunAction where
  | runChecks
  | insertPeer (id : Nat)
  | spawnPeerDriver (id : Nat)
  | sendVerdict (v : Option PeerError)
  deriving DecidableEq, Repr

/-- The sequence of steps executed by the `addpeer` case of the run loop,
in the order they appear in the source: run the checks; if they passed,
insert the new peer into the map and spawn its `runPeer` driver; in every
case, send the verdict on `c.cont` last. -/
def addpeerTrace (srv : ServerCfg) (peers : PeerMap) (c : Conn) : List RunAction :=
  match protoHandshakeChecks srv peers c with
  | some err => [.runChecks, .sendVerdict (some err)]
  | none => [.runChecks, .insertPeer c.id, .spawnPeerDriver c.id, .sendVerdict none]

/-- The events the run loop's select statement can serve. -/
inductive RunEvent where
  | addstatic (n : Nat)
  | peerOp
  | taskdone
  | posthandshake (c : Conn)
  | addpeer (c : Conn)
  | delpeer (id : Nat)

/-- The effect of one run-loop event on the peer map. `addstatic`,
`peerOp`, `taskdone` and `posthandshake` do not touch the map; `addpeer`
may insert; `delpeer` deletes. -/
def runStep (srv : ServerCfg) (peers : PeerMap) : RunEvent → PeerMap
  | .addstatic _ => peers
  | .peerOp => peers
  | .taskdone => peers
  | .posthandshake _ => peers
  | .addpeer c => (addpeerEvent srv peers c).1
  | .delpeer id => PeerMap.erase peers id

/-- Peer maps reachable by the run loop from its initial empty map. -/
inductive Reachable (srv : ServerCfg) : PeerMap → Prop
  | init : Reachable srv []
  | step {m : PeerMap} (e : RunEvent) : Reachable srv m → Reachable srv (runStep srv m e)

/-- A peer whose connection is exempt from the `MaxPeers` cap: its flags
contain `trustedConn` or `staticDialedConn`. -/
def Peer.exempt (p : Peer) : Bool := p.flags &&& (trustedConn ||| staticDialedConn) != 0

/-- The number of peers in the map that count against the `MaxPeers` cap
(entries whose connection is neither trusted nor static-dialed). -/
def cappedCount (m : PeerMap) : Nat := (m.filter (fun kv => ¬ kv.2.exempt)).length

/-! ### The setup driver (`Server.setupConn`) -/

/-- The remote's protocol handshake (`protoHandshake`): its advertised ID,
name and capabilities. -/
structure ProtoHS where
  id : Nat
  name : String
  caps : List Cap
  deriving DecidableEq, Repr

/-- The environment a single `setupConn` execution runs against: the
server's `running` flag as read at entry, the outcome of each transport
handshake (an opaque transport error code or a result), whether the quit
channel is found closed at each checkpoint, and the peer map the run loop
holds when it serves each checkpoint. -/
structure SetupEnv where
  running : Bool
  encResult : Except Nat Nat
  quit1 : Bool
  peers1 : PeerMap
  protoResult : Except Nat ProtoHS
  quit2 : Bool
  peers2 : PeerMap
  deriving Repr

/-- The two checkpoint stages of `setupConn`. -/
inductive Checkpoint where
  | posthandshake
  | addpeer
  deriving DecidableEq, Repr

/-- How a `setupConn` execution ends: either the driver closes the
connection with a reason, or the connection was admitted as a peer. -/
inductive SetupOutcome where
  | closed (reason : PeerError)
  | added (id : Nat)
  deriving DecidableEq, Repr

/-- The tail of `setupConn` after the dial identity check: first checkpoint
(`posthandshake`), protocol handshake, cross-handshake identity check,
second checkpoint (`addpeer`). Returns the outcome and the list of
checkpoints reached. The trusted flag ORed in at the first checkpoint
persists on the connection through the second. -/
def setupConnChecked (srv : ServerCfg) (flags : Nat) (id : Nat) (env : SetupEnv) :
    SetupOutcome × List Checkpoint :=
  if env.quit1 then (.closed .errServerStopped, [.posthandshake])
  else
    match encHandshakeChecks srv env.peers1 (posthandshakeTrust srv ⟨flags, id, []⟩) with
    | some err => (.closed err, [.posthandshake])
    | none =>
      match env.protoResult with
      | .error code => (.closed (.transportError code), [.posthandshake])
      | .ok phs =>
        if phs.id ≠ id then (.closed .DiscUnexpectedIdentity, [.posthandshake])
        else if env.quit2 then (.closed .errServerStopped, [.posthandshake, .addpeer])
        else
          match (addpeerEvent srv env.peers2
              { posthandshakeTrust srv ⟨flags, id, []⟩ with caps := phs.caps }).2 with
          | some err => (.closed err, [.posthandshake, .addpeer])
          | none => (.added id, [.posthandshake, .addpeer])

/-- `Server.setupConn(fd, flags, dialDest)`: check `running`, run the
encryption handshake, check the dialed identity, then continue with the
checkpointed tail. Returns the outcome and the checkpoints reached. -/
def setupConn (srv : ServerCfg) (flags : Nat) (dialDest : Option Nat) (env : SetupEnv) :
    SetupOutcome × List Checkpoint :=
  if ¬ env.running then (.closed .errServerStopped, [])
  else
    match env.encResult with
    | .error code => (.closed (.transportError code), [])
    | .ok id =>
      match dialDest with
      | some dest =>
        if id ≠ dest then (.closed .DiscUnexpectedIdentity, [])
        else setupConnChecked srv flags id env
      | none => setupConnChecked srv flags id env

/-! ### The server facade: `Start` and `Stop` -/

/-- The facade state relevant to `Start`/`Stop`: the `running` flag, whether
`PrivateKey` is set, the configured `ListenAddr` and `Discovery` flag, the
`quit` channel (`none` models the nil zero value), the listener, and the
number of workers currently registered in `loopWG`. -/
structure ServerState where
  running : Bool
  privateKeySet : Bool
  listenAddr : String
  discovery : Bool
  quit : Option Nat
  quitClosed : Bool
  listener : Option Nat
  workers : Nat
  deriving DecidableEq, Repr

/-- The externally visible operations `Stop` may perform. `waitWorkers`
stands for `loopWG.Wait()`. -/
inductive ServerOp where
  | closeListener
  | closeQuit (ch : Option Nat)
  | waitWorkers
  deriving DecidableEq, Repr

/-- The errors `Start` can return in this model. -/
inductive StartError where
  | alreadyRunning
  | privateKeyMissing
  | discoveryFailed
  | listenFailed
  deriving DecidableEq, Repr

/-- `Server.Stop`: if not running, return; otherwise clear `running`, close
the listener when one exists, and close the quit channel. The source
performs no `loopWG.Wait()` and leaves the worker count untouched. Returns
the new state and the operations performed. -/
def serverStop (s : ServerState) : ServerState × List ServerOp :=
  if ¬ s.running then (s, [])
  else
    ({ s with running := false, quitClosed := true },
     (if s.listener.isSome then [ServerOp.closeListener] else []) ++ [ServerOp.closeQuit s.quit])

/-- `Server.Start`, in source order: reject when already running; set
`running := true`; then validate `PrivateKey`; allocate the channels; start
discovery and the listener (`udpOk`/`listenOk` model whether those external
operations succeed); spawn the run loop worker (and the listen loop worker
when listening); set `running := true` again. Note that the `running` flag
is set before the `PrivateKey` check and is not rolled back on error. -/
def serverStart (s : ServerState) (udpOk listenOk : Bool) : ServerState × Option StartError :=
  if s.running then (s, some .alreadyRunning)
  else if ¬ s.privateKeySet then
    ({ s with running := true }, some .privateKeyMissing)
  else if s.discovery ∧ ¬ udpOk then
    ({ s with running := true, quit := some (s.workers + 1), quitClosed := false },
     some .discoveryFailed)
  else if s.listenAddr ≠ "" ∧ ¬ listenOk then
    ({ s with running := true, quit := some (s.workers + 1), quitClosed := false },
     some .listenFailed)
  else if s.listenAddr ≠ "" then
    ({ s with
        running := true
        quit := some (s.workers + 1)
        quitClosed := false
        listener := some 0
        workers := s.workers + 2 }, none)
  else
    ({ s with
        running := true
        quit := some (s.workers + 1)
        quitClosed := false
        workers := s.workers + 1 }, none)

/-- A freshly constructed server (zero values) with a private key set and
no listen address: the state from which `Start` spawns exactly the run-loop
worker. -/
def freshServer : ServerState :=
  { running := false, privateKeySet := true, listenAddr := "", discovery := false,
    quit := none, quitClosed := false, listener := none, workers := 0 }

/-! ### Helper lemmas -/

lemma land_lor_left (x y z : Nat) : x &&& (y ||| z) = (x &&& y) ||| (x &&& z) := by
  apply Nat.eq_of_testBit_eq
  intro i
  simp [Nat.testBit_land, Nat.testBit_lor, Bool.and_or_distrib_left]

lemma lor_eq_zero_iff (y z : Nat) : y ||| z = 0 ↔ y = 0 ∧ z = 0 := by
  constructor
  · intro h
    have hb : ∀ i, y.testBit i = false ∧ z.testBit i = false := by
      intro i
      have hi := congrArg (fun n => Nat.testBit n i) h
      simpa [Nat.testBit_lor] using hi
    exact ⟨Nat.eq_of_testBit_eq fun i => by simp [(hb i).1, Nat.zero_testBit],
           Nat.eq_of_testBit_eq fun i => by simp [(hb i).2, Nat.zero_testBit]⟩
  · rintro ⟨rfl, rfl⟩
    rfl

lemma conn_is_lor (c : Conn) (f g : Nat) : c.is (f ||| g) = (c.is f || c.is g) := by
  unfold Conn.is
  rw [land_lor_left, Bool.eq_iff_iff]
  simp only [bne_iff_ne, ne_eq, Bool.or_eq_true, lor_eq_zero_iff]
  tauto

lemma lookup_insert_of_ne (m : PeerMap) (k j : Nat) (v : Peer) (h : k ≠ j) :
    PeerMap.lookup (PeerMap.insert m k v) j = PeerMap.lookup m j := by
  induction m with
  | nil => simp [PeerMap.insert, PeerMap.lookup, h]
  | cons kv rest ih =>
    obtain ⟨a, b⟩ := kv
    by_cases ha : a = k
    · subst ha
      simp [PeerMap.insert, PeerMap.lookup, h]
    · simp [PeerMap.insert, ha, PeerMap.lookup]
      by_cases hj : a = j <;> simp [hj, ih]

lemma insert_of_lookup_none (m : PeerMap) (k : Nat) (v : Peer)
    (h : PeerMap.lookup m k = none) : PeerMap.insert m k v = m ++ [(k, v)] := by
  induction m with
  | nil => simp [PeerMap.insert]
  | cons kv rest ih =>
    obtain ⟨a, b⟩ := kv
    simp only [PeerMap.lookup] at h
    by_cases ha : a = k
    · simp [ha] at h
    · simp [ha] at h
      simp [PeerMap.insert, ha, ih h]

lemma lookup_filter_none (m : PeerMap) (p : Nat × Peer → Bool) (j : Nat)
    (h : PeerMap.lookup m j = none) : PeerMap.lookup (m.filter p) j = none := by
  induction m with
  | nil => simp [PeerMap.lookup]
  | cons kv rest ih =>
    obtain ⟨a, b⟩ := kv
    simp only [PeerMap.lookup] at h
    by_cases ha : a = j
    · simp [ha] at h
    · simp [ha] at h
      by_cases hp : p (a, b) <;> simp [List.filter, hp, PeerMap.lookup, ha, ih h]

lemma cappedCount_le_length (m : PeerMap) : cappedCount m ≤ m.length :=
  List.length_filter_le _ _

lemma cappedCount_append_exempt (m : PeerMap) (k : Nat) (v : Peer) (h : v.exempt = true) :
    cappedCount (m ++ [(k, v)]) = cappedCount m := by
  simp [cappedCount, List.filter_append, h]

lemma cappedCount_erase_le (m : PeerMap) (k : Nat) :
    cappedCount (PeerMap.erase m k) ≤ cappedCount m := by
  unfold cappedCount PeerMap.erase
  exact List.Sublist.length_le (List.Sublist.filter _ (List.filter_sublist m))

lemma encChecks_eq_none_iff (srv : ServerCfg) (peers : PeerMap) (c : Conn) :
    encHandshakeChecks srv peers c = none ↔
      ¬ (¬ c.is (trustedConn ||| staticDialedConn) ∧ srv.maxPeers ≤ (peers.length : Int)) ∧
      PeerMap.lookup peers c.id = none ∧ ¬ c.id = srv.selfId := by
  unfold encHandshakeChecks
  split_ifs with h1 h2 h3 <;> simp_all [Option.isSome_iff_ne_none]

lemma protoChecks_eq_none_iff (srv : ServerCfg) (peers : PeerMap) (c : Conn) :
    protoHandshakeChecks srv peers c = none ↔
      ¬ (0 < srv.protocols.length ∧ countMatchingProtocols srv.protocols c.caps = 0) ∧
      encHandshakeChecks srv peers c = none := by
  unfold protoHandshakeChecks
  split_ifs with h1 <;> simp_all

lemma encChecks_ne_unexpected (srv : ServerCfg) (peers : PeerMap) (c : Conn) :
    encHandshakeChecks srv peers c ≠ some .DiscUnexpectedIdentity := by
  unfold encHandshakeChecks
  split_ifs <;> simp

lemma protoChecks_ne_unexpected (srv : ServerCfg) (peers : PeerMap) (c : Conn) :
    protoHandshakeChecks srv peers c ≠ some .DiscUnexpectedIdentity := by
  unfold protoHandshakeChecks
  split_ifs <;> simp [encChecks_ne_unexpected]

lemma addpeerEvent_verdict (srv : ServerCfg) (peers : PeerMap) (c : Conn) :
    (addpeerEvent srv peers c).2 = protoHandshakeChecks srv peers c := by
  unfold addpeerEvent
  cases protoHandshakeChecks srv peers c <;> rfl

/-! ### Claim theorems -/

/-- The admission check as worded by the spec (claim C3): first
`DiscTooManyPeers` when the connection is neither trusted nor static-dialed
and the map has at least `MaxPeers` entries, else `DiscAlreadyConnected`
when the map already holds the learned ID, else `DiscSelf` when the learned
ID is the server's own, else accept. -/
def encHandshakeChecksSpec (srv : ServerCfg) (peers : PeerMap) (c : Conn) : Option PeerError :=
  if ¬ (c.is trustedConn ∨ c.is staticDialedConn) ∧ srv.maxPeers ≤ (peers.length : Int) then
    some .DiscTooManyPeers
  else if (PeerMap.lookup peers c.id).isSome then
    some .DiscAlreadyConnected
  else if c.id = srv.selfId then
    some .DiscSelf
  else
    none

/-- C3: for every peer map and connection, `encHandshakeChecks` evaluates
its checks in the order stated by the spec and returns the first applicable
result: `DiscTooManyPeers` for a non-trusted, non-static-dialed connection
when the map has at least `MaxPeers` entries; else `DiscAlreadyConnected`
when the learned ID is already present; else `DiscSelf` when the learned ID
is the server's own; else acceptance. -/
theorem encHandshakeChecks_matches_spec (srv : ServerCfg) (peers : PeerMap) (c : Conn) :
    encHandshakeChecks srv peers c = encHandshakeChecksSpec srv peers c := by
  unfold encHandshakeChecks encHandshakeChecksSpec
  simp only [conn_is_lor, Bool.or_eq_true]

/-- C4: `protoHandshakeChecks` returns `DiscUselessPeer` exactly when the
configured protocol list is non-empty and shares no (name, version)
capability pair with the connection's advertised capabilities, and
otherwise returns the result of re-running `encHandshakeChecks` on the
current peer map. -/
theorem protoHandshakeChecks_matches_spec (srv : ServerCfg) (peers : PeerMap) (c : Conn) :
    protoHandshakeChecks srv peers c =
      if srv.protocols ≠ [] ∧ ∀ p ∈ srv.protocols, p.cap ∉ c.caps then
        some .DiscUselessPeer
      else
        encHandshakeChecks srv peers c := by
  have hcond : (0 < srv.protocols.length ∧ countMatchingProtocols srv.protocols c.caps = 0) ↔
      (srv.protocols ≠ [] ∧ ∀ p ∈ srv.protocols, p.cap ∉ c.caps) := by
    unfold countMatchingProtocols
    rw [List.length_pos, List.length_eq_zero, List.filter_eq_nil_iff]
    simp
  unfold protoHandshakeChecks
  exact if_congr hcond rfl rfl

/-- A small concrete configuration used by the witnesses: `MaxPeers = 1`,
own ID 0, no configured protocols, node 2 trusted. -/
def cfgW : ServerCfg := { maxPeers := 1, selfId := 0, protocols := [], trustedNodes := [2] }

/-- C2: at every reachable state of the run loop the peer map holds at most
`MaxPeers` entries excluding trusted or static-dialed connections, and every
run-loop event preserves this bound. -/
theorem run_loop_respects_maxPeers (srv : ServerCfg) (h0 : 0 ≤ srv.maxPeers) :
    (∀ (m : PeerMap) (e : RunEvent),
        (cappedCount m : Int) ≤ srv.maxPeers →
        (cappedCount (runStep srv m e) : Int) ≤ srv.maxPeers)
    ∧ ∀ m : PeerMap, Reachable srv m → (cappedCount m : Int) ≤ srv.maxPeers := by
  have hstep : ∀ (m : PeerMap) (e : RunEvent),
      (cappedCount m : Int) ≤ srv.maxPeers →
      (cappedCount (runStep srv m e) : Int) ≤ srv.maxPeers := by
    intro m e hm
    cases e with
    | addstatic n => exact hm
    | peerOp => exact hm
    | taskdone => exact hm
    | posthandshake c => exact hm
    | delpeer id =>
      have h := cappedCount_erase_le m id
      simp only [runStep]
      omega
    | addpeer c =>
      simp only [runStep, addpeerEvent]
      cases hpc : protoHandshakeChecks srv m c with
      | some err => simpa using hm
      | none =>
        have henc : encHandshakeChecks srv m c = none :=
          ((protoChecks_eq_none_iff srv m c).mp hpc).2
        obtain ⟨hcap, hlk, -⟩ := (encChecks_eq_none_iff srv m c).mp henc
        simp only [insert_of_lookup_none m c.id (newPeer c) hlk]
        by_cases hex : c.is (trustedConn ||| staticDialedConn)
        · have hpe : Peer.exempt (newPeer c) = true := by
            simpa [Peer.exempt, newPeer, Conn.is] using hex
          rw [cappedCount_append_exempt m c.id (newPeer c) hpe]
          exact hm
        · have hlt : (m.length : Int) < srv.maxPeers := by
            by_contra hge
            exact hcap ⟨hex, le_of_not_lt hge⟩
          have hle := cappedCount_le_length (m ++ [(c.id, newPeer c)])
          have hlen : (m ++ [(c.id, newPeer c)]).length = m.length + 1 := by simp
          omega
  refine ⟨hstep, fun m hr => ?_⟩
  induction hr with
  | init => simpa [cappedCount] using h0
  | step e hr ih => exact hstep _ e ih

/-- Witness for C2 at the concrete configuration `cfgW` and the initial
(empty, reachable) peer map. -/
theorem run_loop_respects_maxPeers_witness :
    (0 : Int) ≤ cfgW.maxPeers ∧ (cappedCount [] : Int) ≤ cfgW.maxPeers :=
  ⟨by decide, (run_loop_respects_maxPeers cfgW (by decide)).2 [] Reachable.init⟩

/-- C7: the server's own node ID is absent from the peer map at every
reachable state of the run loop, and both checkpoint stages reject a
connection whose learned ID equals the server's own ID. -/
theorem self_never_admitted (srv : ServerCfg) :
    (∀ m : PeerMap, Reachable srv m → PeerMap.lookup m srv.selfId = none)
    ∧ ∀ (peers : PeerMap) (c : Conn), c.id = srv.selfId →
        encHandshakeChecks srv peers c ≠ none ∧ protoHandshakeChecks srv peers c ≠ none := by
  have hreject : ∀ (peers : PeerMap) (c : Conn), c.id = srv.selfId →
      encHandshakeChecks srv peers c ≠ none := by
    intro peers c hid h
    obtain ⟨-, -, hne⟩ := (encChecks_eq_none_iff srv peers c).mp h
    exact hne hid
  have hstep : ∀ (m : PeerMap) (e : RunEvent), PeerMap.lookup m srv.selfId = none →
      PeerMap.lookup (runStep srv m e) srv.selfId = none := by
    intro m e hm
    cases e with
    | addstatic n => exact hm
    | peerOp => exact hm
    | taskdone => exact hm
    | posthandshake c => exact hm
    | delpeer id => exact lookup_filter_none m _ _ hm
    | addpeer c =>
      simp only [runStep, addpeerEvent]
      cases hpc : protoHandshakeChecks srv m c with
      | some err => simpa using hm
      | none =>
        have henc : encHandshakeChecks srv m c = none :=
          ((protoChecks_eq_none_iff srv m c).mp hpc).2
        have hne : ¬ c.id = srv.selfId := ((encChecks_eq_none_iff srv m c).mp henc).2.2
        simpa [lookup_insert_of_ne m c.id srv.selfId (newPeer c) hne] using hm
  refine ⟨fun m hr => ?_, fun peers c hid => ⟨hreject peers c hid, ?_⟩⟩
  · induction hr with
    | init => rfl
    | step e hr ih => exact hstep _ e ih
  · intro h
    obtain ⟨-, henc⟩ := (protoChecks_eq_none_iff srv peers c).mp h
    exact hreject peers c hid henc

/-- Witness for C7 at the concrete configuration `cfgW`: the initial map
lacks the server's own ID, and a connection claiming the server's own ID is
rejected at the encryption-handshake checkpoint. -/
theorem self_never_admitted_witness :
    PeerMap.lookup [] cfgW.selfId = none ∧
    encHandshakeChecks cfgW [] ⟨inboundConn, 0, []⟩ ≠ none :=
  ⟨(self_never_admitted cfgW).1 [] Reachable.init,
   ((self_never_admitted cfgW).2 [] ⟨inboundConn, 0, []⟩ rfl).1⟩

/-- C5: in the `addpeer` event the verdict send on `c.cont` is always the
last step, and whenever the connection is accepted the peer insertion and
driver spawn occur at strictly earlier positions of the event's step
sequence than the verdict send. -/
theorem addpeer_inserts_before_verdict (srv : ServerCfg) (peers : PeerMap) (c : Conn) :
    (∃ v, (addpeerTrace srv peers c).getLast? = some (RunAction.sendVerdict v))
    ∧ (protoHandshakeChecks srv peers c = none →
        ∃ i j k, i < k ∧ j < k ∧ k + 1 = (addpeerTrace srv peers c).length ∧
          (addpeerTrace srv peers c)[i]? = some (RunAction.insertPeer c.id) ∧
          (addpeerTrace srv peers c)[j]? = some (RunAction.spawnPeerDriver c.id) ∧
          (addpeerTrace srv peers c)[k]? = some (RunAction.sendVerdict none)) := by
  unfold addpeerTrace
  cases hpc : protoHandshakeChecks srv peers c with
  | some err =>
    refine ⟨⟨some err, rfl⟩, fun h => absurd h (by simp [hpc])⟩
  | none =>
    exact ⟨⟨none, rfl⟩, fun _ => ⟨1, 2, 3, by omega, by omega, rfl, rfl, rfl, rfl⟩⟩

/-- Witness for C5: at the concrete configuration `cfgW`, an accepted
inbound connection with ID 5 is inserted and its driver spawned strictly
before the verdict is sent, which is the final step. -/
theorem addpeer_inserts_before_verdict_witness :
    protoHandshakeChecks cfgW [] ⟨inboundConn, 5, []⟩ = none ∧
    (∃ i j k, i < k ∧ j < k ∧ k + 1 = (addpeerTrace cfgW [] ⟨inboundConn, 5, []⟩).length ∧
      (addpeerTrace cfgW [] ⟨inboundConn, 5, []⟩)[i]? = some (RunAction.insertPeer 5) ∧
      (addpeerTrace cfgW [] ⟨inboundConn, 5, []⟩)[j]? = some (RunAction.spawnPeerDriver 5) ∧
      (addpeerTrace cfgW [] ⟨inboundConn, 5, []⟩)[k]? = some (RunAction.sendVerdict none)) :=
  ⟨by decide, (addpeer_inserts_before_verdict cfgW [] ⟨inboundConn, 5, []⟩).2 (by decide)⟩

/-- C6: the trusted flag is OR-ed into a trusted connection's flags before
`encHandshakeChecks` runs, so the posthandshake verdict for a trusted
learned ID is never `DiscTooManyPeers`; concretely, with `MaxPeers = 1` and
one non-trusted peer already admitted, an inbound trusted connection passes
the posthandshake checkpoint and its admission yields a peer map of size 2. -/
theorem trusted_exempt_from_maxPeers :
    (∀ (srv : ServerCfg) (peers : PeerMap) (c : Conn), c.id ∈ srv.trustedNodes →
        posthandshakeEvent srv peers c ≠ some PeerError.DiscTooManyPeers)
    ∧ posthandshakeEvent cfgW [(1, ⟨inboundConn, 1, []⟩)] ⟨inboundConn, 2, []⟩ = none
    ∧ ((addpeerEvent cfgW [(1, ⟨inboundConn, 1, []⟩)]
          (posthandshakeTrust cfgW ⟨inboundConn, 2, []⟩)).1).length = 2 := by
  refine ⟨?_, by decide, by decide⟩
  intro srv peers c hmem
  unfold posthandshakeEvent posthandshakeTrust
  have hc : srv.trustedNodes.contains c.id = true :=
    List.elem_eq_true_of_mem hmem
  simp only [hc, if_true]
  have hex : Conn.is ⟨c.flags ||| trustedConn, c.id, c.caps⟩
      (trustedConn ||| staticDialedConn) = true := by
    have h8 : Nat.testBit trustedConn 3 = true := by decide
    have h10 : Nat.testBit (trustedConn ||| staticDialedConn) 3 = true := by decide
    simp only [Conn.is, bne_iff_ne, ne_eq]
    intro hz
    have hb := congrArg (fun n => Nat.testBit n 3) hz
    simp [Nat.testBit_land, Nat.testBit_lor, h8, h10] at hb
  unfold encHandshakeChecks
  split_ifs with h1 h2 h3 <;> simp_all

/-- Witness for C6: at the concrete configuration `cfgW`, an inbound
connection from the trusted node 2 is never rejected with
`DiscTooManyPeers` at the posthandshake checkpoint. -/
theorem trusted_exempt_from_maxPeers_witness :
    posthandshakeEvent cfgW [] ⟨inboundConn, 2, []⟩ ≠ some PeerError.DiscTooManyPeers :=
  trusted_exempt_from_maxPeers.1 cfgW [] ⟨inboundConn, 2, []⟩ (by decide)

/-- C8: the setup driver closes a connection with `DiscUnexpectedIdentity`
exactly in the two identity-mismatch cases — a dialed connection whose
encryption-learned ID differs from the dial destination's ID, or a protocol
handshake advertising an ID different from the encryption-learned one — and
in the dialed-mismatch case it returns before reaching any checkpoint,
while in either case it never reaches the `addpeer` checkpoint. -/
theorem setupConn_unexpected_identity (srv : ServerCfg) (flags : Nat)
    (dialDest : Option Nat) (env : SetupEnv) :
    ((setupConn srv flags dialDest env).1 = SetupOutcome.closed PeerError.DiscUnexpectedIdentity ↔
      env.running = true ∧ ∃ id, env.encResult = Except.ok id ∧
        ((∃ dest, dialDest = some dest ∧ id ≠ dest) ∨
         ((∀ dest, dialDest = some dest → id = dest) ∧ env.quit1 = false ∧
          encHandshakeChecks srv env.peers1 (posthandshakeTrust srv ⟨flags, id, []⟩) = none ∧
          ∃ phs, env.protoResult = Except.ok phs ∧ phs.id ≠ id)))
    ∧ (∀ id dest, env.running = true → env.encResult = Except.ok id → dialDest = some dest →
        id ≠ dest →
        setupConn srv flags dialDest env =
          (SetupOutcome.closed PeerError.DiscUnexpectedIdentity, []))
    ∧ ((setupConn srv flags dialDest env).1 = SetupOutcome.closed PeerError.DiscUnexpectedIdentity →
        Checkpoint.addpeer ∉ (setupConn srv flags dialDest env).2) := by
  have hchecked : ∀ id : Nat,
      ((setupConnChecked srv flags id env).1 =
          SetupOutcome.closed PeerError.DiscUnexpectedIdentity ↔
        (env.quit1 = false ∧
         encHandshakeChecks srv env.peers1 (posthandshakeTrust srv ⟨flags, id, []⟩) = none ∧
         ∃ phs, env.protoResult = Except.ok phs ∧ phs.id ≠ id))
      ∧ ((setupConnChecked srv flags id env).1 =
            SetupOutcome.closed PeerError.DiscUnexpectedIdentity →
          (setupConnChecked srv flags id env).2 = [Checkpoint.posthandshake]) := by
    intro id
    unfold setupConnChecked
    by_cases hq1 : env.quit1
    · simp [hq1]
    · rw [if_neg hq1]
      cases henc : encHandshakeChecks srv env.peers1 (posthandshakeTrust srv ⟨flags, id, []⟩) with
      | some err =>
        have hne : err ≠ PeerError.DiscUnexpectedIdentity := by
          have h := encChecks_ne_unexpected srv env.peers1 (posthandshakeTrust srv ⟨flags, id, []⟩)
          rw [henc] at h
          simpa using h
        simp [hne]
      | none =>
        dsimp only
        cases hpr : env.protoResult with
        | error code => simp
        | ok phs =>
          dsimp only
          by_cases hid : phs.id = id
          · rw [if_neg (not_not_intro hid)]
            by_cases hq2 : env.quit2
            · simp [hq2, hid]
            · rw [if_neg hq2]
              cases hap : (addpeerEvent srv env.peers2
                  { posthandshakeTrust srv ⟨flags, id, []⟩ with caps := phs.caps }).2 with
              | some err =>
                have hne : err ≠ PeerError.DiscUnexpectedIdentity := by
                  have h := protoChecks_ne_unexpected srv env.peers2
                    { posthandshakeTrust srv ⟨flags, id, []⟩ with caps := phs.caps }
                  rw [← addpeerEvent_verdict, hap] at h
                  simpa using h
                simp [hne, hid]
              | none => simp [hid]
          · rw [if_pos hid]
            simp [hq1, hid]
  refine ⟨?_, ?_, ?_⟩
  · unfold setupConn
    by_cases hr : env.running
    · rw [if_neg (not_not_intro hr)]
      cases hencR : env.encResult with
      | error code => simp
      | ok id =>
        cases hdd : dialDest with
        | some dest =>
          dsimp only
          by_cases hidd : id = dest
          · rw [if_neg (not_not_intro hidd)]
            rw [(hchecked id).1]
            constructor
            · rintro ⟨hq1f, henc, hrest⟩
              exact ⟨hr, id, rfl,
                Or.inr ⟨fun d hd => hidd.trans (by injection hd), hq1f, henc, hrest⟩⟩
            · rintro ⟨-, id2, hid2, hcase⟩
              injection hid2 with h2
              subst h2
              rcases hcase with ⟨d, hd, hne⟩ | ⟨-, hq1f, henc, hrest⟩
              · injection hd with h3
                exact absurd (hidd.trans h3) hne
              · exact ⟨hq1f, henc, hrest⟩
          · rw [if_pos hidd]
            constructor
            · intro _
              exact ⟨hr, id, rfl, Or.inl ⟨dest, rfl, hidd⟩⟩
            · intro _
              rfl
        | none =>
          dsimp only
          rw [(hchecked id).1]
          constructor
          · rintro ⟨hq1f, henc, hrest⟩
            exact ⟨hr, id, rfl, Or.inr ⟨fun d hd => Option.noConfusion hd, hq1f, henc, hrest⟩⟩
          · rintro ⟨-, id2, hid2, hcase⟩
            injection hid2 with h2
            subst h2
            rcases hcase with ⟨d, hd, -⟩ | ⟨-, hq1f, henc, hrest⟩
            · exact Option.noConfusion hd
            · exact ⟨hq1f, henc, hrest⟩
    · rw [if_pos hr]
      simp [hr]
  · intro id dest hrun hencR hdd hne
    unfold setupConn
    rw [hencR, hdd, if_neg (not_not_intro hrun)]
    simp [hne]
  · intro h
    unfold setupConn at h ⊢
    by_cases hr : env.running
    · rw [if_neg (not_not_intro hr)] at h ⊢
      cases hencR : env.encResult with
      | error code =>
        rw [hencR] at h
        simp at h
      | ok id =>
        rw [hencR] at h
        have htail : (setupConnChecked srv flags id env).1 =
              SetupOutcome.closed PeerError.DiscUnexpectedIdentity →
            Checkpoint.addpeer ∉ (setupConnChecked srv flags id env).2 := by
          intro h2
          rw [(hchecked id).2 h2]
          simp
        cases hdd : dialDest with
        | some dest =>
          rw [hdd] at h
          dsimp only at h ⊢
          by_cases hidd : id = dest
          · rw [if_neg (not_not_intro hidd)] at h ⊢
            exact htail h
          · rw [if_pos hidd]
            simp
        | none =>
          rw [hdd] at h
          dsimp only at h ⊢
          exact htail h
    · rw [if_pos hr] at h
      simp at h

/-- The concrete environment used by the C8 witness: the server is running,
the encryption handshake learned ID 5. -/
def envW : SetupEnv :=
  { running := true, encResult := Except.ok 5, quit1 := false, peers1 := [],
    protoResult := Except.ok ⟨5, "peer", []⟩, quit2 := false, peers2 := [] }

/-- Witness for C8: a connection dialed towards node 7 whose encryption
handshake learns ID 5 is closed with `DiscUnexpectedIdentity` before any
checkpoint is reached. -/
theorem setupConn_unexpected_identity_witness :
    setupConn cfgW dynDialedConn (some 7) envW =
      (SetupOutcome.closed PeerError.DiscUnexpectedIdentity, []) :=
  (setupConn_unexpected_identity cfgW dynDialedConn (some 7) envW).2.1 5 7 rfl rfl rfl
    (by decide)

/-- C1: the spec states that Stop waits for all registered workers to exit,
and Stop's own doc comment says it blocks until all active connections have
closed; the source Stop only closes the listener and the quit channel and
performs no wait on `loopWG`. Concretely, after a successful Start (which
registers the run-loop worker) Stop leaves the registered worker count
untouched and its operation list holds no wait. -/
theorem stop_returns_without_waiting :
    (serverStart freshServer true true).2 = none ∧
    (serverStart freshServer true true).1.workers = 1 ∧
    (serverStop (serverStart freshServer true true).1).1.workers = 1 ∧
    (serverStop (serverStart freshServer true true).1).2 = [ServerOp.closeQuit (some 1)] ∧
    ServerOp.waitWorkers ∉ (serverStop (serverStart freshServer true true).1).2 := by
  decide

/-- C9: Stop is idempotent: after a successful Start and a first Stop, the
second Stop observes `running = false` and returns with no operations
performed (the listener and quit channel are not closed again) and the
state unchanged. -/
theorem stop_idempotent (s0 : ServerState) (udpOk listenOk : Bool)
    (h : (serverStart s0 udpOk listenOk).2 = none) :
    (serverStop (serverStart s0 udpOk listenOk).1).1.running = false ∧
    serverStop (serverStop (serverStart s0 udpOk listenOk).1).1 =
      ((serverStop (serverStart s0 udpOk listenOk).1).1, []) := by
  have hrun : (serverStart s0 udpOk listenOk).1.running = true := by
    unfold serverStart at h ⊢
    split_ifs at h ⊢ <;> simp_all
  have hstop1 : serverStop (serverStart s0 udpOk listenOk).1 =
      ({ (serverStart s0 udpOk listenOk).1 with running := false, quitClosed := true },
       (if (serverStart s0 udpOk listenOk).1.listener.isSome then [ServerOp.closeListener]
        else []) ++ [ServerOp.closeQuit (serverStart s0 udpOk listenOk).1.quit]) := by
    unfold serverStop
    rw [if_neg (fun hn => hn hrun)]
  rw [hstop1]
  exact ⟨rfl, rfl⟩

/-- Witness for C9 on a fresh server with a private key: Start succeeds and
the second Stop is a no-op. -/
theorem stop_idempotent_witness :
    (serverStart freshServer true true).2 = none ∧
    ((serverStop (serverStart freshServer true true).1).1.running = false ∧
     serverStop (serverStop (serverStart freshServer true true).1).1 =
       ((serverStop (serverStart freshServer true true).1).1, [])) :=
  ⟨by decide, stop_idempotent freshServer true true (by decide)⟩

/-- C10: Start sets `running := true` before validating the private key and
does not roll it back on error: Start on a fresh server without a private
key returns the key-missing error yet leaves `running = true`; every
subsequent Start returns the already-running error, and a subsequent Stop
proceeds as if the server had started, closing the nil-initialized quit
channel. -/
theorem start_failure_leaves_running (s0 : ServerState) (udpOk listenOk u2 l2 : Bool)
    (h1 : s0.running = false) (h2 : s0.privateKeySet = false)
    (h3 : s0.quit = none) (h4 : s0.listener = none) :
    (serverStart s0 udpOk listenOk).2 = some StartError.privateKeyMissing ∧
    (serverStart s0 udpOk listenOk).1.running = true ∧
    (serverStart (serverStart s0 udpOk listenOk).1 u2 l2).2 = some StartError.alreadyRunning ∧
    (serverStop (serverStart s0 udpOk listenOk).1).2 = [ServerOp.closeQuit none] := by
  have hs : serverStart s0 udpOk listenOk =
      ({ s0 with running := true }, some StartError.privateKeyMissing) := by
    unfold serverStart
    rw [if_neg (by simp [h1]), if_pos (by simp [h2])]
  rw [hs]
  refine ⟨rfl, rfl, ?_, ?_⟩
  · unfold serverStart
    rw [if_pos rfl]
  · unfold serverStop
    rw [if_neg (fun hn => hn rfl)]
    simp [h3, h4]

/-- A fresh server whose private key was never set. -/
def freshServerNoKey : ServerState := { freshServer with privateKeySet := false }

/-- Witness for C10 on a fresh server without a private key. -/
theorem start_failure_leaves_running_witness :
    freshServerNoKey.running = false ∧ freshServerNoKey.privateKeySet = false ∧
    freshServerNoKey.quit = none ∧ freshServerNoKey.listener = none ∧
    ((serverStart freshServerNoKey true true).2 = some StartError.privateKeyMissing ∧
     (serverStart freshServerNoKey true true).1.running = true ∧
     (serverStart (serverStart freshServerNoKey true true).1 true true).2 =
       some StartError.alreadyRunning ∧
     (serverStop (serverStart freshServerNoKey true true).1).2 = [ServerOp.closeQuit none]) :=
  ⟨rfl, rfl, rfl, rfl,
   start_failure_leaves_running freshServerNoKey true true true true rfl rfl rfl rfl⟩

end P2P
